import Mathlib

/-! AD9854 register driver: shadow registers, bit fields, command dispatch.

Shallow embedding of `Core/Inc/ad9854.h`.

Integer model.  The target is an STM32H7 (`main.h` includes `stm32h7xx_hal.h`),
so `int` is 32 bits wide and `uint8_t` operands are promoted to `int` before
every arithmetic or shift operator.  Machine integers are natural numbers:

* a `uint8_t` or `uint64_t` is its value;
* a 32-bit `int` is its two-complement bit pattern, a natural below `2^32`.

A left shift of an `int` whose count is 32 or more, a right shift of a
`uint64_t` whose count is 64 or more, and the overflowing subtraction
`INT_MIN - 1` have no defined result in C; the embedding returns `none` there.
A left shift of an `int` with a count below 32 keeps the low 32 bits of the
product (the behaviour GCC documents for signed `<<`).
-/

namespace AD9854

/-! ## Promoted `int` arithmetic -/

/-- Left shift `a << n` of a non-negative `int` value `a`: the low 32 bits of
`a * 2^n` as a bit pattern, undefined for a count of 32 or more. -/
def int_shl (a n : Nat) : Option Nat :=
  if n < 32 then some ((a <<< n) % 2 ^ 32) else none

/-- Bitwise complement `~p` of a 32-bit `int` bit pattern. -/
def int_not (p : Nat) : Nat :=
  2 ^ 32 - 1 - p % 2 ^ 32

/-- Conversion of a 32-bit `int` bit pattern to `uint64_t`: a pattern with
bit 31 set is a negative `int` and converts to its value modulo `2^64`, which
sets bits 32 to 63 (sign extension). -/
def int_to_uint64 (p : Nat) : Nat :=
  if p < 2 ^ 31 then p else p + (2 ^ 64 - 2 ^ 32)

/-- The initialiser `((uint8_t)1 << bits) - 1` converted to `const uint8_t mask`.
For `bits < 31` the `int` value is `2^bits - 1`, stored modulo 256.  For
`bits = 31` the subtraction overflows `int`, for `bits >= 32` the shift count
is out of range. -/
def field_mask (bits : Nat) : Option Nat :=
  if bits < 31 then some ((2 ^ bits - 1) % 256) else none

/-! ## Data model -/

/-- The struct `ad9854_register`: serial address, 64-bit shadow value, size in
bytes. -/
structure ad9854_register where
  addr : Nat
  value : Nat
  size : Nat
deriving DecidableEq

/-- Names of the members of the global `ad9854_regs`; a value of this type
stands for the pointer `&ad9854_regs.<member>`. -/
inductive RegId where
  | par1 | par2 | ftw1 | ftw2 | dfw | update_clk | ramp_rate_clk | cr
  | osk_i_mult | osk_q_mult | osk_ramp_rate | qdac
deriving DecidableEq

/-- The struct `ad9854_registers`, the shadow register file. -/
structure ad9854_registers where
  par1 : ad9854_register
  par2 : ad9854_register
  ftw1 : ad9854_register
  ftw2 : ad9854_register
  dfw : ad9854_register
  update_clk : ad9854_register
  ramp_rate_clk : ad9854_register
  cr : ad9854_register
  osk_i_mult : ad9854_register
  osk_q_mult : ad9854_register
  osk_ramp_rate : ad9854_register
  qdac : ad9854_register
deriving DecidableEq

/-- Dereference `*reg` for a register pointer. -/
def ad9854_registers.get (rs : ad9854_registers) : RegId → ad9854_register
  | .par1 => rs.par1
  | .par2 => rs.par2
  | .ftw1 => rs.ftw1
  | .ftw2 => rs.ftw2
  | .dfw => rs.dfw
  | .update_clk => rs.update_clk
  | .ramp_rate_clk => rs.ramp_rate_clk
  | .cr => rs.cr
  | .osk_i_mult => rs.osk_i_mult
  | .osk_q_mult => rs.osk_q_mult
  | .osk_ramp_rate => rs.osk_ramp_rate
  | .qdac => rs.qdac

/-- Assignment `reg->value = v` through a register pointer (`addr` and `size`
are `const` members). -/
def ad9854_registers.set_value (rs : ad9854_registers) (id : RegId) (v : Nat) :
    ad9854_registers :=
  match id with
  | .par1 => { rs with par1 := { rs.par1 with value := v } }
  | .par2 => { rs with par2 := { rs.par2 with value := v } }
  | .ftw1 => { rs with ftw1 := { rs.ftw1 with value := v } }
  | .ftw2 => { rs with ftw2 := { rs.ftw2 with value := v } }
  | .dfw => { rs with dfw := { rs.dfw with value := v } }
  | .update_clk => { rs with update_clk := { rs.update_clk with value := v } }
  | .ramp_rate_clk => { rs with ramp_rate_clk := { rs.ramp_rate_clk with value := v } }
  | .cr => { rs with cr := { rs.cr with value := v } }
  | .osk_i_mult => { rs with osk_i_mult := { rs.osk_i_mult with value := v } }
  | .osk_q_mult => { rs with osk_q_mult := { rs.osk_q_mult with value := v } }
  | .osk_ramp_rate => { rs with osk_ramp_rate := { rs.osk_ramp_rate with value := v } }
  | .qdac => { rs with qdac := { rs.qdac with value := v } }

/-- The struct `ad9854_register_bit`: a bit field of a register. -/
structure ad9854_register_bit where
  reg : RegId
  bits : Nat
  offset : Nat
deriving DecidableEq

/-! ## The field table (`DEF_REG_BIT`) -/

def ad9854_comp_pwd : ad9854_register_bit := { reg := .cr, bits := 1, offset := 28 }
def ad9854_qdac_pwd : ad9854_register_bit := { reg := .cr, bits := 1, offset := 26 }
def ad9854_dac_pwd : ad9854_register_bit := { reg := .cr, bits := 1, offset := 25 }
def ad9854_dig_pwd : ad9854_register_bit := { reg := .cr, bits := 1, offset := 24 }
def ad9854_pll_range : ad9854_register_bit := { reg := .cr, bits := 1, offset := 22 }
def ad9854_pll_bypass : ad9854_register_bit := { reg := .cr, bits := 1, offset := 21 }
def ad9854_pll_mult : ad9854_register_bit := { reg := .cr, bits := 5, offset := 16 }
def ad9854_clr_acc1 : ad9854_register_bit := { reg := .cr, bits := 1, offset := 15 }
def ad9854_clr_acc2 : ad9854_register_bit := { reg := .cr, bits := 1, offset := 14 }
def ad9854_triangle : ad9854_register_bit := { reg := .cr, bits := 1, offset := 13 }
def ad9854_src_qdac : ad9854_register_bit := { reg := .cr, bits := 1, offset := 12 }
def ad9854_mode : ad9854_register_bit := { reg := .cr, bits := 3, offset := 9 }
def ad9854_updclk : ad9854_register_bit := { reg := .cr, bits := 1, offset := 8 }
def ad9854_invsinc_byp : ad9854_register_bit := { reg := .cr, bits := 1, offset := 6 }
def ad9854_osk_en : ad9854_register_bit := { reg := .cr, bits := 1, offset := 5 }
def ad9854_osk_int : ad9854_register_bit := { reg := .cr, bits := 1, offset := 4 }
def ad9854_lsb_first : ad9854_register_bit := { reg := .cr, bits := 1, offset := 1 }
def ad9854_sdo_cr : ad9854_register_bit := { reg := .cr, bits := 1, offset := 0 }

/-- All fields defined through `DEF_REG_BIT`, in source order. -/
def ad9854_fields : List ad9854_register_bit :=
  [ad9854_comp_pwd, ad9854_qdac_pwd, ad9854_dac_pwd, ad9854_dig_pwd, ad9854_pll_range,
   ad9854_pll_bypass, ad9854_pll_mult, ad9854_clr_acc1, ad9854_clr_acc2, ad9854_triangle,
   ad9854_src_qdac, ad9854_mode, ad9854_updclk, ad9854_invsinc_byp, ad9854_osk_en,
   ad9854_osk_int, ad9854_lsb_first, ad9854_sdo_cr]

/-- Modelled from the spec: the definition of the global `ad9854_regs` lives in
`ad9854.c`, which is not among the sources.  The spec gives the control register
`cr` the address `0x1E` and a size of 4 bytes; `v` is its shadow value. -/
def ad9854_cr (v : Nat) : ad9854_register :=
  { addr := 0x1E, value := v, size := 4 }

/-! ## Commands (`ad9854_cmd_t`) -/

/-- The enumeration `ad9854_cmd_t`. -/
inductive ad9854_cmd_t where
  | ad9854_cmd_nop | ad9854_cmd_wakeup | ad9854_cmd_pwrdwn | ad9854_cmd_reset
  | ad9854_cmd_start | ad9854_cmd_stop | ad9854_cmd_syocal | ad9854_cmd_sygcal
  | ad9854_cmd_sfocal | ad9854_cmd_rdata | ad9854_cmd_rreg | ad9854_cmd_wreg
deriving DecidableEq

/-- The enumerator values of `ad9854_cmd_t`. -/
def ad9854_cmd_t.val : ad9854_cmd_t → Nat
  | .ad9854_cmd_nop => 0x00
  | .ad9854_cmd_wakeup => 0x02
  | .ad9854_cmd_pwrdwn => 0x04
  | .ad9854_cmd_reset => 0x06
  | .ad9854_cmd_start => 0x08
  | .ad9854_cmd_stop => 0x0a
  | .ad9854_cmd_syocal => 0x16
  | .ad9854_cmd_sygcal => 0x17
  | .ad9854_cmd_sfocal => 0x19
  | .ad9854_cmd_rdata => 0x12
  | .ad9854_cmd_rreg => 0x20
  | .ad9854_cmd_wreg => 0x40

/-! ## Field access on the shadow registers -/

/-- The function `ad9854_set_value(field, value)`:
```
const uint8_t mask = ((uint8_t)1 << field.bits) - 1;
field.reg->value &= ~(mask << field.offset);
field.reg->value |= ((value & mask) << field.offset);
```
Both shifts are computed in promoted 32-bit `int`; the results are converted to
`uint64_t` for the compound assignments.  The parameter `value` is a `uint8_t`. -/
def ad9854_set_value (field : ad9854_register_bit) (value : Nat)
    (regs : ad9854_registers) : Option ad9854_registers := do
  let mask ← field_mask field.bits
  let m ← int_shl mask field.offset
  let v1 := (regs.get field.reg).value &&& int_to_uint64 (int_not m)
  let s ← int_shl ((value % 256) &&& mask) field.offset
  let v2 := v1 ||| int_to_uint64 s
  pure (regs.set_value field.reg v2)

/-- The function `ad9854_get_value(field)`:
```
const uint8_t mask = ((uint8_t)1 << field.bits) - 1;
return (field.reg->value >> field.offset) & mask;
```
The shift is a 64-bit shift (undefined for a count of 64 or more) and the
result is converted to the return type `uint8_t`.  The register file is
returned alongside the result to make the absence of writes explicit. -/
def ad9854_get_value (field : ad9854_register_bit) (regs : ad9854_registers) :
    Option (Nat × ad9854_registers) := do
  let mask ← field_mask field.bits
  if field.offset < 64 then
    pure ((((regs.get field.reg).value >>> field.offset) &&& mask) % 256, regs)
  else
    none

/-! ## External effects -/

/-- The GPIO lines declared through `DEF_GPIO`. -/
inductive gpio_pin where
  | ad9854_pin_rst | ad9854_pin_cs | ad9854_pin_sync | ad9854_pin_drdy
deriving DecidableEq

/-- Status codes of the HAL transport (`HAL_StatusTypeDef`). -/
inductive HAL_StatusTypeDef where
  | HAL_OK | HAL_ERROR | HAL_BUSY | HAL_TIMEOUT
deriving DecidableEq

/-- Calls that leave the driver: GPIO writes, SPI transmissions, and calls of
`ad9854_write_regs`, whose body is in `ad9854.c` and not among the sources. -/
inductive Effect where
  | gpio_set_low (pin : gpio_pin)
  | gpio_set_high (pin : gpio_pin)
  | HAL_SPI_Transmit (pData : List Nat) (Size : Nat) (Timeout : Nat)
  | ad9854_write_regs (reg : RegId) (num : Nat) (data : List Nat)
deriving DecidableEq

/-- Driver state: the shadow registers and the external calls made so far. -/
structure World where
  regs : ad9854_registers
  trace : List Effect
deriving DecidableEq

/-- Behaviour of the serial transport: the status `HAL_SPI_Transmit` returns,
given the calls made so far, the buffer, the size and the timeout. -/
abbrev Transport := List Effect → List Nat → Nat → Nat → HAL_StatusTypeDef

/-- The constant `ad9854_spi_timeout`. -/
def ad9854_spi_timeout : Nat := 100000

/-- Modelled from the spec: the macro `lit2addr` comes from `utils.h`, which is
not among the sources.  It turns a byte value into the address of an object
holding it; the spec has `send_command(cmd_byte)` transmit that one byte.  The
buffer behind the address is the single byte. -/
def lit2addr (x : Nat) : List Nat := [x]

/-- The function `ad9854_select()`. -/
def ad9854_select (w : World) : World :=
  { w with trace := w.trace ++ [Effect.gpio_set_low gpio_pin.ad9854_pin_cs] }

/-- The function `ad9854_unselect()`. -/
def ad9854_unselect (w : World) : World :=
  { w with trace := w.trace ++ [Effect.gpio_set_high gpio_pin.ad9854_pin_cs] }

/-- The function `ad9854_send_cmd(cmd)`, of return type `void`:
```
HAL_SPI_Transmit(&ad9854_dev, lit2addr(cmd), 1, ad9854_spi_timeout);
```
The status returned by the transport is discarded. -/
def ad9854_send_cmd (hal : Transport) (cmd : Nat) (w : World) : Unit × World :=
  let buf := lit2addr (cmd % 256)
  let _status := hal w.trace buf 1 ad9854_spi_timeout
  ((), { w with trace := w.trace ++ [Effect.HAL_SPI_Transmit buf 1 ad9854_spi_timeout] })

/-- The function `ad9854_write_reg(reg, byte)`, whose parameter `byte` is a
`uint8_t`: `ad9854_write_regs(reg, 1, lit2addr(byte))`. -/
def ad9854_write_reg (reg : RegId) (byte : Nat) (w : World) : World :=
  { w with trace := w.trace ++ [Effect.ad9854_write_regs reg 1 (lit2addr (byte % 256))] }

/-- The function `ad9854_update_reg(reg)`: `ad9854_write_reg(reg, reg->value)`. -/
def ad9854_update_reg (reg : RegId) (w : World) : World :=
  ad9854_write_reg reg (w.regs.get reg).value w

/-- The function `ad9854_update_matching_reg(field)`. -/
def ad9854_update_matching_reg (field : ad9854_register_bit) (w : World) : World :=
  ad9854_update_reg field.reg w

/-! ## Sample inputs for concrete evaluations -/

/-- A register of the given size holding the shadow value `v`, at address 0;
the functions studied here never read the address. -/
def sample_register (size v : Nat) : ad9854_register :=
  { addr := 0, value := v, size := size }

/-- A sample register file, not part of the driver: `cr` is as the spec gives
it and holds `cr_value`, the frequency tuning word `ftw1` is 6 bytes wide (48
bits) and holds `ftw1_value`, every other register is 2 bytes wide and zero. -/
def sample_regs (ftw1_value cr_value : Nat) : ad9854_registers :=
  { par1 := sample_register 2 0, par2 := sample_register 2 0,
    ftw1 := sample_register 6 ftw1_value, ftw2 := sample_register 2 0,
    dfw := sample_register 2 0, update_clk := sample_register 2 0,
    ramp_rate_clk := sample_register 2 0, cr := ad9854_cr cr_value,
    osk_i_mult := sample_register 2 0, osk_q_mult := sample_register 2 0,
    osk_ramp_rate := sample_register 2 0, qdac := sample_register 2 0 }

/-- A transport that answers every transmission with the same status. -/
def transport_const (s : HAL_StatusTypeDef) : Transport :=
  fun _ _ _ _ => s

/-! ## Wire format, as the specification words it -/

/-- Specification side: the on-wire payload of a register, `size` bytes taken
from the shadow value, most significant byte first. -/
def spec_payload (r : ad9854_register) : List Nat :=
  (List.range r.size).map (fun i => (r.value / 256 ^ (r.size - 1 - i)) % 256)

/-! ## Integer lemmas and closed forms -/

/-- For a field of at most 8 bits the mask is `2^w - 1`. -/
theorem field_mask_of_le {w : Nat} (hw : w ≤ 8) : field_mask w = some (2 ^ w - 1) := by
  have hpow : 2 ^ w ≤ 2 ^ 8 := Nat.pow_le_pow_right (by decide) hw
  have hpos : 0 < 2 ^ w := Nat.two_pow_pos _
  unfold field_mask
  rw [if_pos (by omega), Nat.mod_eq_of_lt (by omega)]

/-- A left shift whose result stays below bit 31 is the exact product and is a
non-negative `int`. -/
theorem int_shl_of_lt {a o w : Nat} (ha : a < 2 ^ w) (h : o + w ≤ 31) :
    int_shl a o = some (a * 2 ^ o) ∧ a * 2 ^ o < 2 ^ 31 := by
  have hlt : a * 2 ^ o < 2 ^ 31 := by
    calc a * 2 ^ o < 2 ^ w * 2 ^ o := Nat.mul_lt_mul_of_pos_right ha (Nat.two_pow_pos _)
      _ = 2 ^ (w + o) := (Nat.pow_add 2 w o).symm
      _ ≤ 2 ^ 31 := Nat.pow_le_pow_right (by decide) (by omega)
  refine ⟨?_, hlt⟩
  unfold int_shl
  rw [if_pos (by omega), Nat.shiftLeft_eq, Nat.mod_eq_of_lt (by omega)]

/-- The complement of a non-negative `int` is negative; widened to 64 bits it
is the 64-bit complement. -/
theorem int_to_uint64_not {m : Nat} (hm : m < 2 ^ 31) :
    int_to_uint64 (int_not m) = 2 ^ 64 - (m + 1) := by
  unfold int_to_uint64 int_not
  rw [Nat.mod_eq_of_lt (by omega), if_neg (by omega)]
  omega

/-- Widening a non-negative `int` keeps its value. -/
theorem int_to_uint64_of_lt {s : Nat} (hs : s < 2 ^ 31) : int_to_uint64 s = s := by
  unfold int_to_uint64
  rw [if_pos hs]

/-- Closed form of `ad9854_set_value` for a field of at most 8 bits whose top
bit is below bit 31: the shadow value is masked with the 64-bit complement of
the shifted mask, then the shifted field value is OR-ed in. -/
theorem set_value_below_bit31 (regs : ad9854_registers) (field : ad9854_register_bit)
    (x : Nat) (hw : field.bits ≤ 8) (h : field.offset + field.bits ≤ 31) :
    ad9854_set_value field x regs =
      some (regs.set_value field.reg
        (((regs.get field.reg).value &&&
            (2 ^ 64 - ((2 ^ field.bits - 1) * 2 ^ field.offset + 1))) |||
          (x % 2 ^ field.bits) * 2 ^ field.offset)) := by
  have hpos : 0 < 2 ^ field.bits := Nat.two_pow_pos _
  obtain ⟨hm, hmlt⟩ :=
    @int_shl_of_lt (2 ^ field.bits - 1) field.offset field.bits (by omega) h
  obtain ⟨hs, hslt⟩ :=
    @int_shl_of_lt (x % 2 ^ field.bits) field.offset field.bits (Nat.mod_lt _ hpos) h
  have hdvd : 2 ^ field.bits ∣ 256 := by
    have : (256 : Nat) = 2 ^ 8 := by norm_num
    rw [this]
    exact Nat.pow_dvd_pow 2 hw
  have hand : (x % 256) &&& (2 ^ field.bits - 1) = x % 2 ^ field.bits := by
    rw [Nat.and_pow_two_sub_one_eq_mod, Nat.mod_mod_of_dvd _ hdvd]
  simp only [ad9854_set_value, field_mask_of_le hw, Option.bind_eq_bind, Option.some_bind,
    hm, hand, hs, int_to_uint64_not hmlt, int_to_uint64_of_lt hslt]
  rfl

/-- Reading back the register that was just assigned. -/
theorem get_set_value_same (regs : ad9854_registers) (r : RegId) (v : Nat) :
    (regs.set_value r v).get r = { regs.get r with value := v } := by
  cases r <;> rfl

/-- Assigning one register leaves every other register as it was. -/
theorem get_set_value_other (regs : ad9854_registers) (r r2 : RegId) (v : Nat)
    (hne : r2 ≠ r) : (regs.set_value r v).get r2 = regs.get r2 := by
  cases r <;> cases r2 <;> first | rfl | exact absurd rfl hne

/-- Bit by bit, the closed form of a field write: inside `[o, o + w)` the bits
of `x`, elsewhere the bits of the 64-bit prior value. -/
theorem field_write_testBit (v x w o i : Nat) (h : o + w ≤ 31) :
    ((v &&& (2 ^ 64 - ((2 ^ w - 1) * 2 ^ o + 1))) ||| (x % 2 ^ w) * 2 ^ o).testBit i =
      if o ≤ i ∧ i < o + w then x.testBit (i - o)
      else (decide (i < 64) && v.testBit i) := by
  have hpos : 0 < 2 ^ w := Nat.two_pow_pos _
  have hm : (2 ^ w - 1) * 2 ^ o < 2 ^ 64 := by
    calc (2 ^ w - 1) * 2 ^ o < 2 ^ w * 2 ^ o :=
          Nat.mul_lt_mul_of_pos_right (by omega) (Nat.two_pow_pos _)
      _ = 2 ^ (w + o) := (Nat.pow_add 2 w o).symm
      _ ≤ 2 ^ 64 := Nat.pow_le_pow_right (by decide) (by omega)
  rw [Nat.testBit_or, Nat.testBit_and, Nat.testBit_two_pow_sub_succ hm,
    Nat.mul_comm (2 ^ w - 1), Nat.mul_comm (x % 2 ^ w), Nat.testBit_mul_pow_two,
    Nat.testBit_mul_pow_two, Nat.testBit_two_pow_sub_one, Nat.testBit_mod_two_pow]
  by_cases hlo : o ≤ i
  · by_cases hhi : i < o + w
    · have h1 : i - o < w := by omega
      have h2 : i < 64 := by omega
      simp [hlo, hhi, h1, h2]
    · have h1 : ¬ i - o < w := by omega
      simp [hlo, hhi, h1, Bool.and_comm]
  · have h2 : i < 64 := by omega
    simp [hlo, h2]

/-- Closed form of `ad9854_get_value` for a field of at most 8 bits at an
offset below 64. -/
theorem get_value_of_le (regs : ad9854_registers) (field : ad9854_register_bit)
    (hw : field.bits ≤ 8) (ho : field.offset < 64) :
    ad9854_get_value field regs =
      some ((regs.get field.reg).value / 2 ^ field.offset % 2 ^ field.bits, regs) := by
  have hpow : 2 ^ field.bits ≤ 2 ^ 8 := Nat.pow_le_pow_right (by decide) hw
  have hpos : 0 < 2 ^ field.bits := Nat.two_pow_pos _
  have hlt : (regs.get field.reg).value / 2 ^ field.offset % 2 ^ field.bits < 256 :=
    lt_of_lt_of_le (Nat.mod_lt _ hpos) hpow
  simp only [ad9854_get_value, field_mask_of_le hw, Option.bind_eq_bind, Option.some_bind,
    if_pos ho, Nat.and_pow_two_sub_one_eq_mod, Nat.shiftRight_eq_div_pow, Nat.mod_eq_of_lt hlt]
  rfl

/-! ## Field writes whose top bit is below bit 31 -/

/-- Frame property where it holds: for a field of at most 8 bits whose top bit
is below bit 31, `ad9854_set_value` leaves every bit outside `[o, o + w)` of a
64-bit shadow value as it was. -/
theorem set_value_frame_below_bit31 (regs regs2 : ad9854_registers)
    (field : ad9854_register_bit) (x i : Nat) (hw : field.bits ≤ 8)
    (h : field.offset + field.bits ≤ 31) (hv : (regs.get field.reg).value < 2 ^ 64)
    (hset : ad9854_set_value field x regs = some regs2)
    (hout : ¬ (field.offset ≤ i ∧ i < field.offset + field.bits)) :
    (regs2.get field.reg).value.testBit i = (regs.get field.reg).value.testBit i := by
  rw [set_value_below_bit31 regs field x hw h] at hset
  cases hset
  rw [get_set_value_same]
  show Nat.testBit (_ ||| _) i = _
  rw [field_write_testBit _ _ _ _ _ h, if_neg hout]
  by_cases hi : i < 64
  · simp [hi]
  · have hle : 2 ^ 64 ≤ 2 ^ i := Nat.pow_le_pow_right (by decide) (by omega)
    rw [Nat.testBit_lt_two_pow (lt_of_lt_of_le hv hle)]
    simp

/-- Round trip where it holds: for a field of at most 8 bits whose top bit is
below bit 31, `ad9854_set_value` succeeds and `ad9854_get_value` then returns
`x mod 2^w`. -/
theorem set_get_value_below_bit31 (regs : ad9854_registers) (field : ad9854_register_bit)
    (x : Nat) (hw : field.bits ≤ 8) (h : field.offset + field.bits ≤ 31) :
    ∃ regs2, ad9854_set_value field x regs = some regs2 ∧
      ad9854_get_value field regs2 = some (x % 2 ^ field.bits, regs2) := by
  refine ⟨_, set_value_below_bit31 regs field x hw h, ?_⟩
  rw [get_value_of_le _ field hw (by omega), get_set_value_same]
  congr 2
  apply Nat.eq_of_testBit_eq
  intro j
  show Nat.testBit ((_ ||| _) / _ % _) j = _
  rw [Nat.testBit_mod_two_pow, Nat.testBit_mod_two_pow, ← Nat.shiftRight_eq_div_pow,
    Nat.testBit_shiftRight, field_write_testBit _ _ _ _ _ h]
  by_cases hj : j < field.bits
  · have h1 : field.offset ≤ field.offset + j ∧ field.offset + j < field.offset + field.bits := by
      omega
    rw [if_pos h1]
    simp [hj]
  · simp [hj]

/-- Register invariant where it holds: for a field of at most 8 bits lying
within its register and with its top bit below bit 31, a shadow value below
`2^(8*size)` stays below `2^(8*size)`. -/
theorem set_value_invariant_below_bit31 (regs regs2 : ad9854_registers)
    (field : ad9854_register_bit) (x : Nat) (hw : field.bits ≤ 8)
    (h : field.offset + field.bits ≤ 31)
    (hin : field.offset + field.bits ≤ 8 * (regs.get field.reg).size)
    (hv : (regs.get field.reg).value < 2 ^ (8 * (regs.get field.reg).size))
    (hset : ad9854_set_value field x regs = some regs2) :
    (regs2.get field.reg).value < 2 ^ (8 * (regs2.get field.reg).size) := by
  rw [set_value_below_bit31 regs field x hw h] at hset
  cases hset
  rw [get_set_value_same]
  show (_ ||| _) < 2 ^ (8 * (regs.get field.reg).size)
  apply Nat.lt_pow_two_of_testBit
  intro i hi
  rw [field_write_testBit _ _ _ _ _ h, if_neg (by omega)]
  have hle : 2 ^ (8 * (regs.get field.reg).size) ≤ 2 ^ i :=
    Nat.pow_le_pow_right (by decide) hi
  rw [Nat.testBit_lt_two_pow (lt_of_lt_of_le hv hle)]
  simp

/-- Independence of disjoint fields: for two fields of the same register, each
of at most 8 bits with its top bit below bit 31 and with disjoint bit ranges,
`ad9854_set_value` on the first succeeds and `ad9854_get_value` on the second
returns the same defined result after the write as before it. -/
theorem get_value_set_value_disjoint (regs : ad9854_registers)
    (F G : ad9854_register_bit) (x : Nat)
    (hFw : F.bits ≤ 8) (hF : F.offset + F.bits ≤ 31)
    (hGw : G.bits ≤ 8) (hG : G.offset + G.bits ≤ 31) (hreg : G.reg = F.reg)
    (hdisj : F.offset + F.bits ≤ G.offset ∨ G.offset + G.bits ≤ F.offset) :
    ∃ regs2 r, ad9854_set_value F x regs = some regs2 ∧
      ad9854_get_value G regs = some (r, regs) ∧
      ad9854_get_value G regs2 = some (r, regs2) := by
  refine ⟨_, _, set_value_below_bit31 regs F x hFw hF,
    get_value_of_le regs G hGw (by omega), ?_⟩
  rw [get_value_of_le _ G hGw (by omega), hreg, get_set_value_same]
  congr 2
  apply Nat.eq_of_testBit_eq
  intro j
  show Nat.testBit ((_ ||| _) / _ % _) j = _
  rw [Nat.testBit_mod_two_pow, Nat.testBit_mod_two_pow, ← Nat.shiftRight_eq_div_pow,
    ← Nat.shiftRight_eq_div_pow, Nat.testBit_shiftRight, Nat.testBit_shiftRight,
    field_write_testBit _ _ _ _ _ hF]
  by_cases hj : j < G.bits
  · have hout : ¬ (F.offset ≤ G.offset + j ∧ G.offset + j < F.offset + F.bits) := by
      omega
    have h64 : G.offset + j < 64 := by omega
    rw [if_neg hout]
    simp [hj, h64]
  · simp [hj]

/-! ## Field access: behaviour at and above bit 31 -/

/-- Claim C1, evaluated where it fails: on the 6-byte register `ftw1` with
shadow value 0, the field of width 8 at offset 28 lies within the register
(28 + 8 <= 48), yet writing `0x18` and reading the field back gives `0xF8`
and not `0x18 mod 2^8 = 0x18`: bit 31 of the 32-bit intermediate is copied
into bits 32 to 63 of the shadow value. -/
theorem set_get_value_crossing_bit31 :
    28 + 8 ≤ 8 * ((sample_regs 0 0).get RegId.ftw1).size ∧
    ((ad9854_set_value { reg := RegId.ftw1, bits := 8, offset := 28 } 0x18
        (sample_regs 0 0)).bind
      (fun regs => (ad9854_get_value { reg := RegId.ftw1, bits := 8, offset := 28 } regs).map
        Prod.fst)) = some 0xF8 ∧
    0x18 % 2 ^ 8 = 0x18 := by
  decide

/-- Claim C2, evaluated where it fails: on the 6-byte register `ftw1` with
shadow value `0x100000000` (only bit 32 set), writing 0 to the one-bit field at
offset 31 leaves the shadow value 0: bit 32, which is outside the field range
`[31, 32)` and inside the 48 bits of the register, is cleared. -/
theorem set_value_clears_bits_above_31 :
    31 + 1 ≤ 8 * ((sample_regs 0x100000000 0).get RegId.ftw1).size ∧
    ((sample_regs 0x100000000 0).get RegId.ftw1).value.testBit 32 = true ∧
    (ad9854_set_value { reg := RegId.ftw1, bits := 1, offset := 31 } 0
        (sample_regs 0x100000000 0)) = some (sample_regs 0 0) ∧
    ((sample_regs 0 0).get RegId.ftw1).value.testBit 32 = false := by
  decide

/-- Claim C3: with the control register `cr` (address `0x1E`, 4 bytes) holding
the shadow value 0, `ad9854_set_value(ad9854_pll_mult, 0x14)` succeeds and
leaves `cr` with the shadow value `0x00140000`, every other register being
untouched. -/
theorem set_pll_mult_scenario (regs : ad9854_registers) :
    ad9854_pll_mult = { reg := RegId.cr, bits := 5, offset := 16 } ∧
    ad9854_set_value ad9854_pll_mult 0x14 { regs with cr := ad9854_cr 0x00000000 } =
      some { regs with cr := ad9854_cr 0x00140000 } := by
  constructor
  · rfl
  · simp [ad9854_set_value, ad9854_pll_mult, field_mask, int_shl, int_not, int_to_uint64,
      ad9854_registers.get, ad9854_registers.set_value, ad9854_cr]
    decide

/-- Claim C4, evaluated where it fails: for `cr` (4 bytes) with shadow value
`0x00140000`, `ad9854_update_reg` calls `ad9854_write_regs` with count 1 and a
one-byte buffer holding `0x00`, the low byte of the shadow value, whereas the
4-byte big-endian payload of the register is `00 14 00 00`. -/
theorem update_reg_hands_low_byte_only :
    (ad9854_update_reg RegId.cr { regs := sample_regs 0 0x00140000, trace := [] }).trace =
      [Effect.ad9854_write_regs RegId.cr 1 [0x00]] ∧
    spec_payload ((sample_regs 0 0x00140000).get RegId.cr) = [0x00, 0x14, 0x00, 0x00] := by
  decide

/-! ## Command dispatch -/

/-- Claim C5 as stated fails: sending the reset command `0x06` from an empty
trace does not produce the sequence chip-select low, one byte, chip-select
high; the trace holds the transmission alone. -/
theorem send_cmd_reset_has_no_select_frame :
    (ad9854_send_cmd (transport_const HAL_StatusTypeDef.HAL_OK) 0x06
        { regs := sample_regs 0 0, trace := [] }).2.trace ≠
      [Effect.gpio_set_low gpio_pin.ad9854_pin_cs,
       Effect.HAL_SPI_Transmit [0x06] 1 ad9854_spi_timeout,
       Effect.gpio_set_high gpio_pin.ad9854_pin_cs] ∧
    (ad9854_send_cmd (transport_const HAL_StatusTypeDef.HAL_OK) 0x06
        { regs := sample_regs 0 0, trace := [] }).2.trace =
      [Effect.HAL_SPI_Transmit [0x06] 1 ad9854_spi_timeout] := by
  decide

/-- Claim C5, amended: for every command byte `c`, every transport and every
prior state, `ad9854_send_cmd(c)` produces exactly one external effect, the
transmission of the single byte `c` with size 1 and the timeout
`ad9854_spi_timeout`; it does not touch the chip-select line and leaves the
shadow registers as they were. -/
theorem send_cmd_transmits_one_byte (hal : Transport) (c : Nat) (w : World)
    (hc : c < 256) :
    ad9854_send_cmd hal c w =
      ((), { regs := w.regs,
             trace := w.trace ++ [Effect.HAL_SPI_Transmit [c] 1 100000] }) := by
  simp [ad9854_send_cmd, lit2addr, ad9854_spi_timeout, Nat.mod_eq_of_lt hc]

/-- Witness for `send_cmd_transmits_one_byte`: the reset command `0x06`. -/
theorem send_cmd_transmits_one_byte_witness :
    (0x06 : Nat) < 256 ∧
    ad9854_send_cmd (transport_const HAL_StatusTypeDef.HAL_TIMEOUT) 0x06
        { regs := sample_regs 0 0x00140000, trace := [] } =
      ((), { regs := sample_regs 0 0x00140000,
             trace := [] ++ [Effect.HAL_SPI_Transmit [0x06] 1 100000] }) :=
  ⟨by decide,
   send_cmd_transmits_one_byte (transport_const HAL_StatusTypeDef.HAL_TIMEOUT) 0x06
     { regs := sample_regs 0 0x00140000, trace := [] } (by decide)⟩

/-- Claim C6 as stated fails: a transport that reports `HAL_TIMEOUT` and one
that reports `HAL_OK` lead `ad9854_send_cmd(0x06)` to the very same result, so
the timeout is not reported to the caller. -/
theorem send_cmd_timeout_not_reported :
    transport_const HAL_StatusTypeDef.HAL_TIMEOUT [] (lit2addr 0x06) 1 ad9854_spi_timeout =
      HAL_StatusTypeDef.HAL_TIMEOUT ∧
    transport_const HAL_StatusTypeDef.HAL_OK [] (lit2addr 0x06) 1 ad9854_spi_timeout =
      HAL_StatusTypeDef.HAL_OK ∧
    ad9854_send_cmd (transport_const HAL_StatusTypeDef.HAL_TIMEOUT) 0x06
        { regs := sample_regs 0 0, trace := [] } =
      ad9854_send_cmd (transport_const HAL_StatusTypeDef.HAL_OK) 0x06
        { regs := sample_regs 0 0, trace := [] } := by
  decide

/-- Claim C6, amended: `ad9854_send_cmd` returns nothing and discards the
status of the transmission: for any two transports, whatever status each
reports, the value returned and the state left behind are the same; and the
call adds exactly one entry to the trace, a single transmission (no retry). -/
theorem send_cmd_discards_status (hal hal2 : Transport) (c : Nat) (w : World) :
    ad9854_send_cmd hal c w = ad9854_send_cmd hal2 c w ∧
    (ad9854_send_cmd hal c w).2.trace =
      w.trace ++ [Effect.HAL_SPI_Transmit [c % 256] 1 ad9854_spi_timeout] := by
  constructor <;> rfl

/-! ## Register invariant and field extraction -/

/-- Claim C7, evaluated where it fails: `cr` (4 bytes) with shadow value 0
satisfies the register invariant, the one-bit field at offset 31 lies within it
(31 + 1 <= 32), and writing 1 to that field leaves the shadow value
`0xFFFFFFFF80000000`, which needs 64 bits and so breaks the invariant
`value < 2^(8*size)`. -/
theorem set_value_breaks_register_invariant :
    ((sample_regs 0 0).get RegId.cr).value < 2 ^ (8 * ((sample_regs 0 0).get RegId.cr).size) ∧
    31 + 1 ≤ 8 * ((sample_regs 0 0).get RegId.cr).size ∧
    ad9854_set_value { reg := RegId.cr, bits := 1, offset := 31 } 1 (sample_regs 0 0) =
      some (sample_regs 0 0xFFFFFFFF80000000) ∧
    ¬ ((sample_regs 0 0xFFFFFFFF80000000).get RegId.cr).value <
        2 ^ (8 * ((sample_regs 0 0xFFFFFFFF80000000).get RegId.cr).size) := by
  decide

/-- Claim C8 as stated fails: the field of width 9 at offset 0 lies within `cr`
(0 + 9 <= 32); with the shadow value `0x1FF` the nine bits of the field are
`0x1FF`, but `ad9854_get_value` returns `0xFF`, its mask and its result being
bytes.  And a one-bit field at offset 64 of a 9-byte register lies within the
register, but the 64-bit right shift by 64 has no defined result. -/
theorem get_value_wide_field_truncated :
    (0 + 9 ≤ 8 * ((sample_regs 0 0x1FF).get RegId.cr).size ∧
      ad9854_get_value { reg := RegId.cr, bits := 9, offset := 0 } (sample_regs 0 0x1FF) =
        some (0xFF, sample_regs 0 0x1FF) ∧
      0x1FF / 2 ^ 0 % 2 ^ 9 = 0x1FF) ∧
    (64 + 1 ≤ 8 * (({ sample_regs 0 0 with ftw1 := sample_register 9 0 }).get RegId.ftw1).size ∧
      ad9854_get_value { reg := RegId.ftw1, bits := 1, offset := 64 }
        { sample_regs 0 0 with ftw1 := sample_register 9 0 } = none) := by
  decide

/-- Claim C8, amended: for every register file, and every field of width
`w <= 8` and offset `o < 64` lying within its register (`o + w <= 8 * size`),
`ad9854_get_value` returns `floor(v / 2^o) mod 2^w`, where `v` is the shadow
value of the register, and leaves the register file unchanged. -/
theorem get_value_extracts_field (regs : ad9854_registers) (field : ad9854_register_bit)
    (hw : field.bits ≤ 8) (ho : field.offset < 64)
    (_hin : field.offset + field.bits ≤ 8 * (regs.get field.reg).size) :
    ad9854_get_value field regs =
      some ((regs.get field.reg).value / 2 ^ field.offset % 2 ^ field.bits, regs) := by
  exact get_value_of_le regs field hw ho

/-- Witness for `get_value_extracts_field`: the field `ad9854_pll_mult` of `cr`
holding `0x00140000` reads as `0x14`. -/
theorem get_value_extracts_field_witness :
    ad9854_pll_mult.bits ≤ 8 ∧ ad9854_pll_mult.offset < 64 ∧
    ad9854_pll_mult.offset + ad9854_pll_mult.bits ≤
      8 * ((sample_regs 0 0x00140000).get ad9854_pll_mult.reg).size ∧
    ad9854_get_value ad9854_pll_mult (sample_regs 0 0x00140000) =
      some (0x00140000 / 2 ^ 16 % 2 ^ 5, sample_regs 0 0x00140000) :=
  ⟨by decide, by decide, by decide,
   get_value_extracts_field (sample_regs 0 0x00140000) ad9854_pll_mult
     (by decide) (by decide) (by decide)⟩

/-! ## Constants and the field table -/

/-- Claim C9: the enumerators of `ad9854_cmd_t` have the wire values nop `0x00`,
wakeup `0x02`, power-down `0x04`, reset `0x06`, start `0x08`, stop `0x0a`,
system offset calibration `0x16`, system gain calibration `0x17`, self offset
calibration `0x19`, read data `0x12`, read-register opcode `0x20` and
write-register opcode `0x40`. -/
theorem cmd_wire_values :
    ad9854_cmd_t.ad9854_cmd_nop.val = 0x00 ∧
    ad9854_cmd_t.ad9854_cmd_wakeup.val = 0x02 ∧
    ad9854_cmd_t.ad9854_cmd_pwrdwn.val = 0x04 ∧
    ad9854_cmd_t.ad9854_cmd_reset.val = 0x06 ∧
    ad9854_cmd_t.ad9854_cmd_start.val = 0x08 ∧
    ad9854_cmd_t.ad9854_cmd_stop.val = 0x0a ∧
    ad9854_cmd_t.ad9854_cmd_syocal.val = 0x16 ∧
    ad9854_cmd_t.ad9854_cmd_sygcal.val = 0x17 ∧
    ad9854_cmd_t.ad9854_cmd_sfocal.val = 0x19 ∧
    ad9854_cmd_t.ad9854_cmd_rdata.val = 0x12 ∧
    ad9854_cmd_t.ad9854_cmd_rreg.val = 0x20 ∧
    ad9854_cmd_t.ad9854_cmd_wreg.val = 0x40 := by
  decide

/-- Claim C10: the field table has 18 entries, and each of them is a field of
the control register `cr` that satisfies `offset + bits <= size * 8 = 32` for
the 4 bytes of `cr`, whatever its shadow value. -/
theorem field_table_within_cr (v : Nat) (f : ad9854_register_bit)
    (hf : f ∈ ad9854_fields) :
    ad9854_fields.length = 18 ∧ f.reg = RegId.cr ∧ (ad9854_cr v).size * 8 = 32 ∧
    f.offset + f.bits ≤ (ad9854_cr v).size * 8 := by
  have hall : ∀ g ∈ ad9854_fields, g.reg = RegId.cr ∧ g.offset + g.bits ≤ 32 := by
    decide
  obtain ⟨hreg, hle⟩ := hall f hf
  exact ⟨by decide, hreg, rfl, hle⟩

/-- Witness for `field_table_within_cr`: the entry `ad9854_pll_mult`, with
`cr` holding 0. -/
theorem field_table_within_cr_witness :
    ad9854_pll_mult ∈ ad9854_fields ∧
    (ad9854_fields.length = 18 ∧ ad9854_pll_mult.reg = RegId.cr ∧
      (ad9854_cr 0).size * 8 = 32 ∧
      ad9854_pll_mult.offset + ad9854_pll_mult.bits ≤ (ad9854_cr 0).size * 8) :=
  ⟨by decide, field_table_within_cr 0 ad9854_pll_mult (by decide)⟩

/-! ## Independence of the defined fields -/

/-- Claim C11: any two distinct fields `F` and `G` of the field table occupy
disjoint bit ranges of `cr`, and for every 8-bit value `x` and every register
file (so every shadow value of `cr`), `ad9854_set_value(F, x)` succeeds and
`ad9854_get_value(G)` returns the same defined result after it as before it. -/
theorem defined_fields_independent (F G : ad9854_register_bit) (x : Nat)
    (regs : ad9854_registers) (hFmem : F ∈ ad9854_fields) (hGmem : G ∈ ad9854_fields)
    (hne : F ≠ G) (_hx : x < 256) :
    (F.offset + F.bits ≤ G.offset ∨ G.offset + G.bits ≤ F.offset) ∧
    ∃ regs2 r, ad9854_set_value F x regs = some regs2 ∧
      ad9854_get_value G regs = some (r, regs) ∧
      ad9854_get_value G regs2 = some (r, regs2) := by
  have hshape : ∀ f ∈ ad9854_fields,
      f.reg = RegId.cr ∧ f.bits ≤ 8 ∧ f.offset + f.bits ≤ 31 := by
    decide
  have hpair : ∀ f ∈ ad9854_fields, ∀ g ∈ ad9854_fields, f ≠ g →
      (f.offset + f.bits ≤ g.offset ∨ g.offset + g.bits ≤ f.offset) := by
    decide
  obtain ⟨hFr, hFw, hF⟩ := hshape F hFmem
  obtain ⟨hGr, hGw, hG⟩ := hshape G hGmem
  have hdisj := hpair F hFmem G hGmem hne
  exact ⟨hdisj,
    get_value_set_value_disjoint regs F G x hFw hF hGw hG (hGr.trans hFr.symm) hdisj⟩

/-- Witness for `defined_fields_independent`: writing `0x14` to
`ad9854_pll_mult` does not change what `ad9854_mode` reads. -/
theorem defined_fields_independent_witness :
    ad9854_pll_mult ∈ ad9854_fields ∧ ad9854_mode ∈ ad9854_fields ∧
    ad9854_pll_mult ≠ ad9854_mode ∧ (0x14 : Nat) < 256 ∧
    ((ad9854_pll_mult.offset + ad9854_pll_mult.bits ≤ ad9854_mode.offset ∨
        ad9854_mode.offset + ad9854_mode.bits ≤ ad9854_pll_mult.offset) ∧
      ∃ regs2 r, ad9854_set_value ad9854_pll_mult 0x14 (sample_regs 0 0x0E00) = some regs2 ∧
        ad9854_get_value ad9854_mode (sample_regs 0 0x0E00) = some (r, sample_regs 0 0x0E00) ∧
        ad9854_get_value ad9854_mode regs2 = some (r, regs2)) :=
  ⟨by decide, by decide, by decide, by decide,
   defined_fields_independent ad9854_pll_mult ad9854_mode 0x14 (sample_regs 0 0x0E00)
     (by decide) (by decide) (by decide) (by decide)⟩

end AD9854
